import Mathlib

set_option maxRecDepth 40000
set_option maxHeartbeats 2000000

/-!
Verification of the static-site generator in `generate_html.py`
(repository `gravel-fryksas`).

The script reads YAML front matter from per-route metadata files and writes
three kinds of HTML pages: an index per area, a page per route, and a root
index.  This file gives a shallow embedding of the script: YAML scalars and
the flat lists occurring in route metadata become the type `Val`; a parsed
route record is an association list; the three renderers become pure
functions producing the page text; dictionary lookups that may raise
`KeyError` become `Except`; the driver becomes a fold over directory
entries that accumulates the (path, content) pairs the script would write.
The YAML parser itself (library `yaml`, not part of the repository) is a
parameter of the loader.
-/

namespace GravelFryksas

/-! ### Decimal numbers (Python floats)

YAML floats such as `42.5` become Python floats; `repr` (used by both
f-strings and `json.dumps`) prints a float as the shortest decimal
numeral that denotes it back.  We represent a float by that canonical
decimal: `⟨m, e⟩` denotes `m / 10 ^ e` (so `42.5` is `⟨425, 1⟩` and
`42.0` is `⟨420, 1⟩`).  The decimal-to-text rendering is implemented
below from digit lists, and its losslessness is proved as part of C2. -/

/-- A decimal number `m / 10 ^ e`: the value denoted by a float's
canonical decimal representation. -/
structure DecNum where
  m : Int
  e : Nat
deriving DecidableEq

/-- The rational value of a decimal number. -/
def DecNum.toRat (d : DecNum) : ℚ :=
  (d.m : ℚ) / (10 : ℚ) ^ d.e

/-- The character of one decimal digit. -/
def digitChar (d : Nat) : Char :=
  Char.ofNat (48 + d)

/-- The digit of one decimal character. -/
def charDigit (c : Char) : Nat :=
  c.toNat - 48

def isDigitChar (c : Char) : Bool :=
  decide (48 ≤ c.toNat) && decide (c.toNat ≤ 57)

/-- Base-10 digits of `n`, least significant first (empty for 0); the
first argument is fuel, `n` itself always suffices. -/
def natToDigitsRevFuel : Nat → Nat → List Nat
  | 0, _ => []
  | fuel + 1, n => if n = 0 then [] else n % 10 :: natToDigitsRevFuel fuel (n / 10)

/-- Base-10 digits of `n`, least significant first (empty for 0). -/
def natDigitsRev (n : Nat) : List Nat :=
  natToDigitsRevFuel n n

/-- The number denoted by a least-significant-first digit list. -/
def ofDigitsRev : List Nat → Nat
  | [] => 0
  | d :: ds => d + 10 * ofDigitsRev ds

/-- Most-significant-first character run of a digit list, `"0"` when
empty. -/
def digitsStr (ds : List Nat) : List Char :=
  if ds.isEmpty then ['0'] else (ds.map digitChar).reverse

/-- The characters of the decimal numeral of `a / 10 ^ e` (no sign):
integer digits, decimal point, exactly `e` fractional digits (one `0`
when `e = 0`, as Python's float `repr` always prints a fractional
part). -/
def unsignedFloatChars (a e : Nat) : List Char :=
  if e = 0 then digitsStr (natDigitsRev a) ++ ['.', '0']
  else
    digitsStr ((natDigitsRev a).drop e) ++ '.' ::
      (((natDigitsRev a ++ List.replicate e 0).take e).map digitChar).reverse

/-- Python `repr` of the float denoting `m / 10 ^ e`. -/
def pyFloatRepr (d : DecNum) : String :=
  (if d.m < 0 then "-" else "") ++ String.mk (unsignedFloatChars d.m.natAbs d.e)

/-- The number read from a most-significant-first run of decimal digit
characters. -/
def digitsValAux : Nat → List Char → Nat
  | acc, [] => acc
  | acc, c :: cs => digitsValAux (acc * 10 + charDigit c) cs

/-- The rational denoted by an unsigned decimal numeral
`<digits>.<digits>`: nonempty digit runs on both sides of one decimal
point, combined positionally; anything else denotes nothing. -/
def decDenoteNat (s : List Char) : Option ℚ :=
  if (s.dropWhile (fun c => c != '.')).head? = some '.' ∧
      ¬(s.takeWhile (fun c => c != '.')).isEmpty = true ∧
      ¬((s.dropWhile (fun c => c != '.')).tail.isEmpty = true) ∧
      (s.takeWhile (fun c => c != '.')).all isDigitChar = true ∧
      (s.dropWhile (fun c => c != '.')).tail.all isDigitChar = true then
    some ((digitsValAux 0 (s.takeWhile (fun c => c != '.')) : ℚ) +
      (digitsValAux 0 ((s.dropWhile (fun c => c != '.')).tail) : ℚ) /
        (10 : ℚ) ^ ((s.dropWhile (fun c => c != '.')).tail.length))
  else none



/-- The rational denoted by a decimal numeral with an optional leading
minus sign: what a JSON (or Python) reader makes of the serialized
float. -/
def decDenote (s : List Char) : Option ℚ :=
  match s with
  | c :: rest =>
    if c = '-' then (decDenoteNat rest).map (fun q => -q)
    else decDenoteNat (c :: rest)
  | [] => decDenoteNat []

/-- A YAML scalar as it appears in route metadata values: an integer, a
float, or a string. -/
inductive Scalar where
  | int (n : Int)
  | float (d : DecNum)
  | str (s : String)
deriving DecidableEq

/-- A value of a route-record field: an integer, a float, a string, or a
flat list of scalars (the `photos` field is a list of filenames). -/
inductive Val where
  | int (n : Int)
  | float (d : DecNum)
  | str (s : String)
  | vlist (xs : List Scalar)
deriving DecidableEq

/-- A parsed route record: the dictionary produced by `yaml.safe_load`,
as an association list from field names to values. -/
abbrev Record := List (String × Val)

/-- `route[k]` / `route.get(k)`: dictionary lookup. -/
def rget (r : Record) (k : String) : Option Val :=
  r.lookup k

/-- Errors surfaced by the script: `KeyError` from a missing required
field, a YAML `ParseError`, or a type mismatch on a field value. -/
inductive Err where
  | keyError (k : String)
  | parseError
  | typeError
deriving DecidableEq

/-! ### Python string primitives used by the script -/

/-- Python `str()` of a scalar, as interpolated by an f-string. -/
def scalarStr : Scalar → String
  | .int n => toString n
  | .float d => pyFloatRepr d
  | .str s => s

/-- Python `repr()` of a scalar (strings gain quotes), used when a list
is converted to text. -/
def scalarRepr : Scalar → String
  | .int n => toString n
  | .float d => pyFloatRepr d
  | .str s => "\x27" ++ s ++ "\x27"

/-- Python `str()` of a field value, as interpolated by an f-string. -/
def pyStr : Val → String
  | .int n => toString n
  | .float d => pyFloatRepr d
  | .str s => s
  | .vlist xs => "[" ++ String.intercalate ", " (xs.map scalarRepr) ++ "]"

/-- Interpolation of an optional value: Python renders the null object as
the text `None`. -/
def pyStrOpt : Option Val → String
  | none => "None"
  | some v => pyStr v

/-- Python `str.capitalize()` restricted to ASCII: first character
uppercased, the rest lowercased. -/
def pyCapitalize (s : String) : String :=
  match s.data with
  | [] => ""
  | c :: cs => String.mk (c.toUpper :: cs.map Char.toLower)

/-- Python `str.replace` for a single-character pattern, the only form the
script uses (`description.replace("\n", "<br>")`). -/
def replaceChar (pat : Char) (rep : String) (s : String) : String :=
  String.join (s.data.map (fun c => if c = pat then rep else String.singleton c))

/-! ### Front-matter stripping (`load_routes`, lines 33-39)

The script reads the file, calls `.strip()`, and, when the result starts
with `---`, calls `.strip("-").strip()`.  We model the text as a list of
characters. -/

/-- The whitespace characters stripped by Python's `str.strip()`. -/
def pyIsSpace (c : Char) : Bool :=
  c == ' ' || c == '\t' || c == '\n' || c == '\r' || c == '\x0b' || c == '\x0c'

/-- Python `str.strip(chars)`: remove characters satisfying `p` from both
ends. -/
def stripWhile (p : Char → Bool) (l : List Char) : List Char :=
  ((l.dropWhile p).reverse.dropWhile p).reverse

/-- Python `content.strip()`. -/
def pyStripWS (l : List Char) : List Char :=
  stripWhile pyIsSpace l

/-- Python `content.strip("-")`. -/
def pyStripDash (l : List Char) : List Char :=
  stripWhile (fun c => c == '-') l

/-- Python `content.startswith("---")`. -/
def startsWithDashes (l : List Char) : Bool :=
  ['-', '-', '-'].isPrefixOf l

/-- Lines 34-37 of `load_routes`: strip surrounding whitespace, and when
the text then starts with `---`, strip all leading/trailing hyphens and
then surrounding whitespace again. -/
def stripFrontMatter (raw : List Char) : List Char :=
  let content := pyStripWS raw
  if startsWithDashes content then pyStripWS (pyStripDash content) else content

/-! ### Substring search (used to state "the page contains ...") -/

/-- `listContains needle hay` is true when `needle` occurs contiguously in
`hay`. -/
def listContains (needle : List Char) : List Char → Bool
  | [] => needle.isEmpty
  | c :: t => needle.isPrefixOf (c :: t) || listContains needle t

/-- `strContains hay pat` is true when `pat` occurs as a substring of
`hay`. -/
def strContains (hay pat : String) : Bool :=
  listContains pat.data hay.data

theorem listContains_iff (needle : List Char) (hay : List Char) :
    listContains needle hay = true ↔ needle <:+: hay := by
  induction hay with
  | nil =>
    simp [listContains, List.isEmpty_iff]
  | cons c t ih =>
    simp [listContains, List.infix_cons_iff, ih]

theorem strContains_iff (hay pat : String) :
    strContains hay pat = true ↔ pat.data <:+: hay.data := by
  simpa [strContains] using listContains_iff pat.data hay.data

theorem infix_data_append_right (s t : String) (pat : List Char)
    (h : pat <:+: s.data) : pat <:+: (s ++ t).data := by
  rw [String.data_append]
  rcases h with ⟨u, v, huv⟩
  exact ⟨u, v ++ t.data, by rw [← huv]; simp⟩

theorem infix_data_append_left (s t : String) (pat : List Char)
    (h : pat <:+: t.data) : pat <:+: (s ++ t).data := by
  rw [String.data_append]
  rcases h with ⟨u, v, huv⟩
  exact ⟨s.data ++ u, v, by rw [← huv]; simp⟩

/-! ### JSON serialization (`json.dumps` on the embedded route data)

`generate_area_index` serializes a list of small dictionaries whose values
are scalars, null, or flat lists of scalars.  `JVal` is the JSON image of
an optional `Val`; rendering follows `json.dumps` with its default
separators and `ensure_ascii=False`. -/

/-- A JSON value as produced from a route-record field: null, a number, a
string, or a flat array of scalars. -/
inductive JVal where
  | null
  | num (n : Int)
  | fnum (d : DecNum)
  | jstr (s : String)
  | arr (xs : List Scalar)
deriving DecidableEq

/-- One hexadecimal digit, lowercase. -/
def hexDigit (n : Nat) : Char :=
  if n < 10 then Char.ofNat (48 + n) else Char.ofNat (87 + n)

/-- JSON string escaping as performed by `json.dumps` with
`ensure_ascii=False`. -/
def jsonEscapeChar (c : Char) : String :=
  if c = '"' then "\\\""
  else if c = '\\' then "\\\\"
  else if c = '\n' then "\\n"
  else if c = '\t' then "\\t"
  else if c = '\r' then "\\r"
  else if c = '\x08' then "\\b"
  else if c = '\x0c' then "\\f"
  else if c.toNat < 32 then
    "\\u00" ++ String.singleton (hexDigit (c.toNat / 16)) ++
      String.singleton (hexDigit (c.toNat % 16))
  else String.singleton c

def jsonEscape (s : String) : String :=
  String.join (s.data.map jsonEscapeChar)

def renderJScalar : Scalar → String
  | .int n => toString n
  | .float d => pyFloatRepr d
  | .str s => "\"" ++ jsonEscape s ++ "\""

def renderJVal : JVal → String
  | .null => "null"
  | .num n => toString n
  | .fnum d => pyFloatRepr d
  | .jstr s => "\"" ++ jsonEscape s ++ "\""
  | .arr xs => "[" ++ String.intercalate ", " (xs.map renderJScalar) ++ "]"

/-- The JSON image of a field value under `json.dumps`. -/
def valJson : Val → JVal
  | .int n => .num n
  | .float d => .fnum d
  | .str s => .jstr s
  | .vlist xs => .arr xs

/-- The JSON image of an optional field value: Python `None` serializes to
`null`. -/
def optJson : Option Val → JVal
  | none => .null
  | some v => valJson v

/-- `json.dumps` of one dictionary with string keys. -/
def renderJObj (fields : List (String × JVal)) : String :=
  "\x7b" ++
    String.intercalate ", "
      (fields.map (fun kv => "\"" ++ jsonEscape kv.1 ++ "\": " ++ renderJVal kv.2)) ++
    "\x7d"

/-- `json.dumps` of the list of per-route dictionaries. -/
def renderJObjList (objs : List (List (String × JVal))) : String :=
  "[" ++ String.intercalate ", " (objs.map renderJObj) ++ "]"

/-- Field lookup in a serialized dictionary. -/
def jfield (fields : List (String × JVal)) (k : String) : Option JVal :=
  fields.lookup k

/-! ### Area index renderer (`generate_area_index`, lines 44-132) -/

/-- The compact per-route entry embedded in the area index (lines 56-66):
`title` and `slug` are required lookups (`KeyError` when absent), the four
numeric facts use `dict.get` and may be absent. -/
structure Entry where
  title : Val
  slug : Val
  distance : Option Val
  elevation : Option Val
  asphalt : Option Val
  gravel : Option Val
deriving DecidableEq

/-- Build the compact entry for one route (the dictionary comprehension at
lines 57-64). -/
def buildEntry (r : Record) : Except Err Entry :=
  match rget r "title" with
  | none => .error (.keyError "title")
  | some title =>
    match rget r "slug" with
    | none => .error (.keyError "slug")
    | some slug =>
      .ok ⟨title, slug, rget r "distance_km", rget r "elevation_m",
           rget r "asphalt_pct", rget r "gravel_pct"⟩

/-- Sequence a fallible step over a list, stopping at the first error:
the shape of every accumulation loop in the script. -/
def mapMExcept {α β : Type} (f : α → Except Err β) :
    List α → Except Err (List β)
  | [] => .ok []
  | a :: t =>
    match f a with
    | .error e => .error e
    | .ok b =>
      match mapMExcept f t with
      | .error e => .error e
      | .ok bs => .ok (b :: bs)

/-- The compact entries for all routes of an area, in route order. -/
def embedEntries (routes : List Record) : Except Err (List Entry) :=
  mapMExcept buildEntry routes

/-- The dictionary serialized for one entry, in the key order of the
source comprehension. -/
def entryFields (e : Entry) : List (String × JVal) :=
  [("title", valJson e.title), ("slug", valJson e.slug),
   ("distance", optJson e.distance), ("elevation", optJson e.elevation),
   ("asphalt", optJson e.asphalt), ("gravel", optJson e.gravel)]

/-- The area index page text (lines 68-130) with the area name and the
serialized route data substituted. -/
def areaIndexTemplate (area : String) (routes_json : String) : String :=
  "<!DOCTYPE html>\n" ++
  "<html lang=\"sv\">\n" ++
  "<head>\n" ++
  "  <meta charset=\"utf-8\">\n" ++
  "  <title>Gravel " ++ pyCapitalize area ++ "</title>\n" ++
  "  <meta name=\"viewport\" content=\"width=device-width, initial-scale=1\">\n" ++
  "  <link rel=\"stylesheet\" href=\"../../shared/style.css\">\n" ++
  "  <script src=\"https://cdn.jsdelivr.net/npm/leaflet@1.9.4/dist/leaflet.js\"></script>\n" ++
  "  <link rel=\"stylesheet\" href=\"https://cdn.jsdelivr.net/npm/leaflet@1.9.4/dist/leaflet.css\" />\n" ++
  "</head>\n" ++
  "<body>\n" ++
  "  <header class=\"header\">\n" ++
  "    <h1>Gravelrutter i " ++ pyCapitalize area ++ "</h1>\n" ++
  "    <nav><a href=\"/index.html\">Till startsidan</a></nav>\n" ++
  "  </header>\n" ++
  "  <section class=\"filter\">\n" ++
  "    <label>Max distans (km): <input id=\"maxDist\" type=\"number\" min=\"0\" step=\"1\" placeholder=\"Alla\"></label>\n" ++
  "    <label>Max höjdmeter: <input id=\"maxElev\" type=\"number\" min=\"0\" step=\"50\" placeholder=\"Alla\"></label>\n" ++
  "    <button onclick=\"applyFilters()\">Filtrera</button>\n" ++
  "    <button onclick=\"resetFilters()\">Återställ</button>\n" ++
  "  </section>\n" ++
  "  <section id=\"routeList\"></section>\n" ++
  "  <script>\n" ++
  "    const routes = " ++ routes_json ++ ";\n" ++
  "    function renderList(data) \x7b\n" ++
  "      const container = document.getElementById(\x27routeList\x27);\n" ++
  "      container.innerHTML = \x27\x27;\n" ++
  "      if (!data.length) \x7b\n" ++
  "        container.innerHTML = \x27<p>Inga rutter matchar filtren.</p>\x27;\n" ++
  "        return;\n" ++
  "      \x7d\n" ++
  "      data.forEach(r => \x7b\n" ++
  "        const div = document.createElement(\x27div\x27);\n" ++
  "        div.className = \x27route-card\x27;\n" ++
  "        div.innerHTML = \x60\n" ++
  "          <h2><a href=\"./routes/$\x7br.slug\x7d.html\">$\x7br.title\x7d</a></h2>\n" ++
  "          <p><strong>Distans:</strong> $\x7br.distance\x7d km<br>\n" ++
  "          <strong>Höjdmeter:</strong> $\x7br.elevation\x7d m<br>\n" ++
  "          <strong>Asfalt:</strong> $\x7br.asphalt\x7d %<br>\n" ++
  "          <strong>Grus:</strong> $\x7br.gravel\x7d %</p>\n" ++
  "        \x60;\n" ++
  "        container.appendChild(div);\n" ++
  "      \x7d);\n" ++
  "    \x7d\n" ++
  "    function applyFilters() \x7b\n" ++
  "      const maxD = parseFloat(document.getElementById(\x27maxDist\x27).value);\n" ++
  "      const maxE = parseFloat(document.getElementById(\x27maxElev\x27).value);\n" ++
  "      const filtered = routes.filter(r => \x7b\n" ++
  "        return (isNaN(maxD) || r.distance <= maxD) &&\n" ++
  "               (isNaN(maxE) || r.elevation <= maxE);\n" ++
  "      \x7d);\n" ++
  "      renderList(filtered);\n" ++
  "    \x7d\n" ++
  "    function resetFilters() \x7b\n" ++
  "      document.getElementById(\x27maxDist\x27).value = \x27\x27;\n" ++
  "      document.getElementById(\x27maxElev\x27).value = \x27\x27;\n" ++
  "      renderList(routes);\n" ++
  "    \x7d\n" ++
  "    // Initial render\n" ++
  "    renderList(routes);\n" ++
  "  </script>\n" ++
  "</body>\n" ++
  "</html>"

/-- `generate_area_index`: serialize the compact entries and substitute
them into the page template. -/
def generate_area_index (area : String) (routes : List Record) :
    Except Err String :=
  match embedEntries routes with
  | .error e => .error e
  | .ok entries =>
    .ok (areaIndexTemplate area (renderJObjList (entries.map entryFields)))

/-! ### Route page renderer (`generate_route_page`, lines 135-223) -/

/-- The Leaflet map script (lines 164-183) after `.format(gpx_file=...)`:
the doubled braces of the Python template appear singly in the output. -/
def map_script (gpx : String) : String :=
  "\n" ++
  "    <script>\n" ++
  "      const map = L.map(\x27map\x27);\n" ++
  "      L.tileLayer(\x27https://\x7bs\x7d.tile.openstreetmap.org/\x7bz\x7d/\x7bx\x7d/\x7by\x7d.png\x27, \x7b\n" ++
  "        attribution: \x27Map data © <a href=\"https://openstreetmap.org\">OpenStreetMap</a> contributors\x27\n" ++
  "      \x7d).addTo(map);\n" ++
  "      const gpxPath = \x27../../gpx/" ++ gpx ++ "\x27;\n" ++
  "      new L.GPX(gpxPath, \x7b\n" ++
  "        async: true,\n" ++
  "        marker_options: \x7b\n" ++
  "          startIconUrl: \x27https://cdnjs.cloudflare.com/ajax/libs/leaflet.gpx/1.7.0/pin-icon-start.png\x27,\n" ++
  "          endIconUrl: \x27https://cdnjs.cloudflare.com/ajax/libs/leaflet.gpx/1.7.0/pin-icon-end.png\x27,\n" ++
  "          shadowUrl: \x27https://cdnjs.cloudflare.com/ajax/libs/leaflet.gpx/1.7.0/pin-shadow.png\x27\n" ++
  "        \x7d\n" ++
  "      \x7d).on(\x27loaded\x27, function(e) \x7b\n" ++
  "        map.fitBounds(e.target.getBounds());\n" ++
  "      \x7d).addTo(map);\n" ++
  "    </script>\n" ++
  "    "

/-- Lines 184-202 of the page: everything before the four facts. -/
def pageTop (titleStr : String) : String :=
  "<!DOCTYPE html>\n" ++
  "<html lang=\x27sv\x27>\n" ++
  "<head>\n" ++
  "  <meta charset=\x27utf-8\x27>\n" ++
  "  <title>" ++ titleStr ++ " – Gravelrutt</title>\n" ++
  "  <meta name=\x27viewport\x27 content=\x27width=device-width, initial-scale=1\x27>\n" ++
  "  <link rel=\x27stylesheet\x27 href=\x27../../../shared/style.css\x27>\n" ++
  "  <script src=\x27https://cdn.jsdelivr.net/npm/leaflet@1.9.4/dist/leaflet.js\x27></script>\n" ++
  "  <script src=\x27https://cdnjs.cloudflare.com/ajax/libs/leaflet.gpx/1.7.0/gpx.min.js\x27></script>\n" ++
  "  <link rel=\x27stylesheet\x27 href=\x27https://cdn.jsdelivr.net/npm/leaflet@1.9.4/dist/leaflet.css\x27 />\n" ++
  "</head>\n" ++
  "<body>\n" ++
  "  <header class=\x27header\x27>\n" ++
  "    <h1>" ++ titleStr ++ "</h1>\n" ++
  "    <nav><a href=\x27../index.html\x27>Tillbaka till ruttlistan</a> | <a href=\x27/index.html\x27>Startsida</a></nav>\n" ++
  "  </header>\n" ++
  "  <section class=\x27route-content\x27>\n" ++
  "    <div class=\x27route-facts\x27>\n"

/-- Lines 203-206: the four numeric facts, each interpolated with
Python's rendering of the (possibly absent) value. -/
def routeFacts (distance elevation asphalt gravel : Option Val) : String :=
  "      <p><strong>Distans:</strong> " ++ pyStrOpt distance ++ " km</p>\n" ++
  ("      <p><strong>Höjdmeter:</strong> " ++ pyStrOpt elevation ++ " m</p>\n" ++
   ("      <p><strong>Andel asfalt:</strong> " ++ pyStrOpt asphalt ++ " %</p>\n" ++
    ("      <p><strong>Andel grus:</strong> " ++ pyStrOpt gravel ++ " %</p>\n")))

/-- Lines 207-221: everything after the four facts. -/
def pageBottom (gpxStr description_html photo_items : String) : String :=
  "    </div>\n" ++
  "    <div id=\x27map\x27 style=\x27height:400px; margin-bottom:1em;\x27></div>\n" ++
  map_script gpxStr ++
  "    <article class=\x27description\x27>\n" ++
  "      <p>" ++ description_html ++ "</p>\n" ++
  "    </article>\n" ++
  "    <section class=\x27photos\x27>\n" ++
  "      <h2>Bilder</h2>\n" ++
  "      <ul class=\x27photo-gallery\x27>" ++ photo_items ++ "</ul>\n" ++
  "    </section>\n" ++
  "    <p><a href=\x27../../gpx/" ++ gpxStr ++ "\x27>Ladda ned GPX-fil</a></p>\n" ++
  "  </section>\n" ++
  "</body>\n" ++
  "</html>"

/-- `generate_route_page`: `title` and `slug` are required lookups, the
remaining fields use `dict.get`; the page is the concatenation of the
template pieces above.  The `area` argument is taken but, as in the
source, unused by the template. -/
def generate_route_page (area : String) (route : Record) :
    Except Err String :=
  match rget route "title" with
  | none => .error (.keyError "title")
  | some title =>
    match rget route "slug" with
    | none => .error (.keyError "slug")
    | some _slug =>
      match (rget route "description").getD (Val.str "") with
      | .str description =>
        match (rget route "photos").getD (Val.vlist []) with
        | .vlist photos =>
          .ok (pageTop (pyStr title) ++
               routeFacts (rget route "distance_km") (rget route "elevation_m")
                 (rget route "asphalt_pct") (rget route "gravel_pct") ++
               pageBottom (pyStrOpt (rget route "gpx_file"))
                 (replaceChar '\n' "<br>" description)
                 (String.join (photos.map (fun img =>
                   "<li><img src=\"../images/" ++ scalarStr img ++
                     "\" alt=\"Foto " ++ pyStr title ++ "\"></li>"))))
        | _ => .error .typeError
      | _ => .error .typeError

/-! ### Root index renderer (`generate_root_index`, lines 226-250) -/

/-- The root index text before the area links. -/
def rootIndexHeader : String :=
  "<!DOCTYPE html>\n" ++
  "<html lang=\x27sv\x27>\n" ++
  "<head>\n" ++
  "  <meta charset=\x27utf-8\x27>\n" ++
  "  <title>Gravelrutter</title>\n" ++
  "  <meta name=\x27viewport\x27 content=\x27width=device-width, initial-scale=1\x27>\n" ++
  "  <link rel=\x27stylesheet\x27 href=\x27shared/style.css\x27>\n" ++
  "</head>\n" ++
  "<body>\n" ++
  "  <header class=\x27header\x27>\n" ++
  "    <h1>Gravelrutter</h1>\n" ++
  "  </header>\n" ++
  "  <section>\n" ++
  "    <p>Välj område:</p>\n" ++
  "    <ul>\n"

/-- One `<li>` link of the root index (line 245). -/
def areaLink (area : String) : String :=
  "      <li><a href=\x27areas/" ++ area ++ "/index.html\x27>" ++
    pyCapitalize area ++ "</a></li>\n"

/-- The root index text after the area links. -/
def rootIndexFooter : String :=
  "    </ul>\n" ++
  "  </section>\n" ++
  "</body>\n" ++
  "</html>"

/-- `generate_root_index`: the source appends one link per area to the
header with a `for` loop (a left fold), then appends the footer. -/
def generate_root_index (areas : List String) : String :=
  (areas.foldl (fun h a => h ++ areaLink a) rootIndexHeader) ++ rootIndexFooter

/-! ### Loader and driver (`load_routes` lines 21-41, `main` lines 253-269)

A metadata directory is a list of (filename, file text) pairs; a directory
entry of the areas root carries its name, whether it is a directory, and
its metadata files.  Python's `sorted` is a stable sort; we use insertion
sort, which is also stable and therefore produces the same ordering.  The
driver returns the list of (path, content) files the script writes, in
write order, together with the error that aborted the run, if any. -/

/-- Python string comparison: lexicographic on code points. -/
def strLeChars : List Char → List Char → Bool
  | [], _ => true
  | _ :: _, [] => false
  | a :: as, b :: bs => if a = b then strLeChars as bs else decide (a.toNat < b.toNat)

/-- A metadata file: filename and raw text. -/
abbrev MdFile := String × List Char

/-- The filename order used by `sorted(metadata_dir.glob("*.md"))`. -/
def fileLe (a b : MdFile) : Prop :=
  strLeChars a.1.data b.1.data = true

instance : DecidableRel fileLe := fun a b => by
  unfold fileLe; infer_instance

/-- An entry of the areas root directory. -/
structure DirEntry where
  name : String
  isDir : Bool
  files : List MdFile

/-- `load_routes`: sort the metadata files by filename, strip front-matter
delimiters, and parse each with the YAML parser (a parameter: the `yaml`
library is external to the repository). -/
def load_routes (parseYaml : List Char → Except Err Record)
    (files : List MdFile) : Except Err (List Record) :=
  mapMExcept (fun f => parseYaml (stripFrontMatter f.2))
    (files.insertionSort fileLe)

/-- One file written by the script. -/
structure WriteOp where
  path : String
  content : String
deriving DecidableEq

/-- Output path of an area index (line 263). -/
def areaIndexPath (area : String) : String :=
  "areas/" ++ area ++ "/index.html"

/-- Output path of a route page (line 266): the slug is interpolated by an
f-string. -/
def routePagePath (area : String) (slug : Val) : String :=
  "areas/" ++ area ++ "/routes/" ++ pyStr slug ++ ".html"

/-- The loop at lines 265-267: for each route, look up its slug to form
the output path, render the page, and write it.  On the first error the
loop stops; files written earlier remain. -/
def writeRoutePages (area : String) : List Record → List WriteOp × Option Err
  | [] => ([], none)
  | r :: rs =>
    match rget r "slug" with
    | none => ([], some (Err.keyError "slug"))
    | some slug =>
      match generate_route_page area r with
      | .error e => ([], some e)
      | .ok html =>
        let rest := writeRoutePages area rs
        (⟨routePagePath area slug, html⟩ :: rest.1, rest.2)

/-- Processing of one area (lines 261-267): load all routes, write the
area index, then write the route pages.  A load or render failure before
the first write of the area produces no write at all. -/
def areaStep (parseYaml : List Char → Except Err Record) (d : DirEntry) :
    List WriteOp × Option Err :=
  match load_routes parseYaml d.files with
  | .error e => ([], some e)
  | .ok routes =>
    match generate_area_index d.name routes with
    | .error e => ([], some e)
    | .ok idx =>
      let rest := writeRoutePages d.name routes
      (⟨areaIndexPath d.name, idx⟩ :: rest.1, rest.2)

/-- The loop of `main` over the entries of the areas root (lines 257-267):
non-directories are skipped; each directory contributes its name (in
encounter order) and its writes; the first error aborts the loop. -/
def mainLoop (parseYaml : List Char → Except Err Record) :
    List DirEntry → List String × List WriteOp × Option Err
  | [] => ([], [], none)
  | d :: rest =>
    if d.isDir then
      let step := areaStep parseYaml d
      match step.2 with
      | some e => ([d.name], step.1, some e)
      | none =>
        let later := mainLoop parseYaml rest
        (d.name :: later.1, step.1 ++ later.2.1, later.2.2)
    else mainLoop parseYaml rest

/-- `main`: run the loop, and on success additionally write the root
index listing the accumulated area names (line 269). -/
def mainRun (parseYaml : List Char → Except Err Record)
    (entries : List DirEntry) : List WriteOp × Option Err :=
  let res := mainLoop parseYaml entries
  match res.2.2 with
  | some e => (res.2.1, some e)
  | none => (res.2.1 ++ [⟨"index.html", generate_root_index res.1⟩], none)

/-! ### Filesystem model

`Path.write_text` overwrites the destination file.  A filesystem is an
association list from path to content; a write shadows any previous entry
for the same path. -/

/-- Overwrite `p` with content `c`. -/
def fsSet (fs : List (String × String)) (p c : String) :
    List (String × String) :=
  (p, c) :: fs.filter (fun e => e.1 != p)

/-- Read the content at `p`, if the file exists. -/
def fsRead (fs : List (String × String)) (p : String) : Option String :=
  fs.lookup p

/-- Apply a run's writes, in order. -/
def applyWrites (fs : List (String × String)) (ws : List WriteOp) :
    List (String × String) :=
  ws.foldl (fun f w => fsSet f w.path w.content) fs

/-! ### Helper lemmas -/

theorem dropWhile_eq_self_of_head (p : Char → Bool) (l : List Char)
    (h : ∀ c, l.head? = some c → p c = false) : l.dropWhile p = l := by
  cases l with
  | nil => rfl
  | cons a t =>
    rw [List.dropWhile_cons_of_neg]
    simp [h a rfl]

theorem stripWhile_eq_self (p : Char → Bool) (l : List Char)
    (hh : ∀ c, l.head? = some c → p c = false)
    (hl : ∀ c, l.getLast? = some c → p c = false) : stripWhile p l = l := by
  unfold stripWhile
  rw [dropWhile_eq_self_of_head p l hh,
      dropWhile_eq_self_of_head p l.reverse
        (fun c hc => hl c (by rwa [List.head?_reverse] at hc)),
      List.reverse_reverse]

theorem char_toNat_injective (a b : Char) (h : a.toNat = b.toNat) : a = b := by
  have ha := Char.ofNat_toNat a
  rw [h, Char.ofNat_toNat] at ha
  exact ha.symm

theorem strLeChars_total (x y : List Char) :
    strLeChars x y = true ∨ strLeChars y x = true := by
  induction x generalizing y with
  | nil => left; rfl
  | cons a as ih =>
    cases y with
    | nil => right; rfl
    | cons b bs =>
      by_cases hab : a = b
      · subst hab
        rcases ih bs with h | h
        · left; simpa [strLeChars] using h
        · right; simpa [strLeChars] using h
      · have hn : a.toNat ≠ b.toNat := fun h => hab (char_toNat_injective a b h)
        have hba : b ≠ a := fun he => hab he.symm
        rcases Nat.lt_or_ge a.toNat b.toNat with h | h
        · left
          simp only [strLeChars, if_neg hab]
          exact decide_eq_true h
        · right
          have hlt : b.toNat < a.toNat := lt_of_le_of_ne h (fun he => hn he.symm)
          simp only [strLeChars, if_neg hba]
          exact decide_eq_true hlt

theorem strLeChars_trans (x y z : List Char)
    (h1 : strLeChars x y = true) (h2 : strLeChars y z = true) :
    strLeChars x z = true := by
  induction x generalizing y z with
  | nil => rfl
  | cons a as ih =>
    cases y with
    | nil => simp [strLeChars] at h1
    | cons b bs =>
      cases z with
      | nil => simp [strLeChars] at h2
      | cons c cs =>
        by_cases hab : a = b
        · subst hab
          by_cases hac : a = c
          · subst hac
            simp only [strLeChars, if_pos rfl] at h1 h2 ⊢
            exact ih bs cs h1 h2
          · simp only [strLeChars, if_pos rfl] at h1
            simp only [strLeChars, if_neg hac] at h2 ⊢
            exact h2
        · simp only [strLeChars, if_neg hab, decide_eq_true_eq] at h1
          by_cases hbc : b = c
          · subst hbc
            have hac : a ≠ b := hab
            simp only [strLeChars, if_neg hac, decide_eq_true_eq]
            exact h1
          · simp only [strLeChars, if_neg hbc, decide_eq_true_eq] at h2
            have hlt : a.toNat < c.toNat := lt_trans h1 h2
            have hac : a ≠ c := fun he => by subst he; exact absurd hlt (lt_irrefl _)
            simp only [strLeChars, if_neg hac, decide_eq_true_eq]
            exact hlt

instance : IsTotal MdFile fileLe :=
  ⟨fun a b => strLeChars_total a.1.data b.1.data⟩

instance : IsTrans MdFile fileLe :=
  ⟨fun a b c => strLeChars_trans a.1.data b.1.data c.1.data⟩

theorem mapM_ok_forall2 {a b : Type} (f : a → Except Err b) :
    ∀ (l : List a) (rs : List b), mapMExcept f l = Except.ok rs →
      List.Forall₂ (fun x y => f x = Except.ok y) l rs := by
  intro l
  induction l with
  | nil =>
    intro rs h
    cases h
    exact List.Forall₂.nil
  | cons x t ih =>
    intro rs h
    unfold mapMExcept at h
    cases hfx : f x with
    | error e => rw [hfx] at h; cases h
    | ok y =>
      rw [hfx] at h
      cases ht : mapMExcept f t with
      | error e => rw [ht] at h; cases h
      | ok ys =>
        rw [ht] at h
        cases h
        exact List.Forall₂.cons hfx (ih ys ht)

theorem mapM_ok_length {a b : Type} (f : a → Except Err b) (l : List a)
    (rs : List b) (h : mapMExcept f l = Except.ok rs) : rs.length = l.length :=
  (mapM_ok_forall2 f l rs h).length_eq.symm

theorem mapM_ok_of_mem {a b : Type} (f : a → Except Err b) (l : List a)
    (rs : List b) (h : mapMExcept f l = Except.ok rs) (x : a) (hx : x ∈ l) :
    ∃ y, f x = Except.ok y := by
  induction l generalizing rs with
  | nil => cases hx
  | cons z t ih =>
    unfold mapMExcept at h
    cases hfz : f z with
    | error e => rw [hfz] at h; cases h
    | ok y =>
      rw [hfz] at h
      cases ht : mapMExcept f t with
      | error e => rw [ht] at h; cases h
      | ok ys =>
        rcases List.mem_cons.mp hx with rfl | hxt
        · exact ⟨y, hfz⟩
        · exact ih ys ht hxt

theorem mapM_error_of_mem {a b : Type} (f : a → Except Err b) (l : List a)
    (x : a) (hx : x ∈ l) (e : Err) (hfx : f x = Except.error e) :
    ∃ e2, mapMExcept f l = Except.error e2 := by
  induction l with
  | nil => cases hx
  | cons z t ih =>
    unfold mapMExcept
    cases hfz : f z with
    | error e3 => exact ⟨e3, rfl⟩
    | ok y =>
      rcases List.mem_cons.mp hx with rfl | hxt
      · rw [hfz] at hfx; cases hfx
      · rcases ih hxt with ⟨e2, he2⟩
        rw [he2]
        exact ⟨e2, rfl⟩

/-- The area links of the root index, in list order. -/
def linksText : List String → String
  | [] => ""
  | a :: t => areaLink a ++ linksText t

theorem foldl_links (l : List String) (s : String) :
    l.foldl (fun h a => h ++ areaLink a) s = s ++ linksText l := by
  induction l generalizing s with
  | nil => simp [linksText]
  | cons a t ih => simp [linksText, ih, String.append_assoc]

theorem lookup_filter_ne (fs : List (String × String)) (p q : String)
    (h : q ≠ p) :
    (fs.filter (fun e => e.1 != p)).lookup q = fs.lookup q := by
  induction fs with
  | nil => rfl
  | cons e t ih =>
    by_cases hep : e.1 = p
    · have h1 : (e.1 != p) = false := by simp [hep]
      have h2 : (q == e.1) = false := by simp [hep, h]
      simp only [List.filter_cons, h1, Bool.false_eq_true, if_false, ih,
        List.lookup, h2]
    · have h1 : (e.1 != p) = true := by simp [hep]
      simp only [List.filter_cons, h1, if_true, List.lookup]
      cases hqe : q == e.1 with
      | true => rfl
      | false => exact ih

theorem fsRead_set_self (fs : List (String × String)) (p c : String) :
    fsRead (fsSet fs p c) p = some c := by
  simp [fsRead, fsSet, List.lookup]

theorem fsRead_set_other (fs : List (String × String)) (p c q : String)
    (h : q ≠ p) : fsRead (fsSet fs p c) q = fsRead fs q := by
  simp only [fsRead, fsSet, List.lookup]
  have : (q == p) = false := by simp [h]
  rw [this]
  exact lookup_filter_ne fs p q h

theorem applyWrites_cons (fs : List (String × String)) (w : WriteOp)
    (ws : List WriteOp) :
    applyWrites fs (w :: ws) = applyWrites (fsSet fs w.path w.content) ws :=
  rfl

theorem read_applyWrites_not_mem (ws : List WriteOp)
    (fs : List (String × String)) (p : String)
    (h : p ∉ ws.map (fun w => w.path)) :
    fsRead (applyWrites fs ws) p = fsRead fs p := by
  induction ws generalizing fs with
  | nil => rfl
  | cons w t ih =>
    rw [applyWrites_cons]
    have hp : p ≠ w.path := fun he => h (by simp [he])
    rw [ih _ (fun hm => h (by simp [hm]))]
    exact fsRead_set_other fs w.path w.content p hp

theorem read_applyWrites_indep (ws : List WriteOp)
    (p : String) (h : p ∈ ws.map (fun w => w.path))
    (fs fs2 : List (String × String)) :
    fsRead (applyWrites fs ws) p = fsRead (applyWrites fs2 ws) p := by
  induction ws generalizing fs fs2 with
  | nil => cases h
  | cons w t ih =>
    rw [applyWrites_cons, applyWrites_cons]
    by_cases hp : p ∈ t.map (fun w => w.path)
    · exact ih hp _ _
    · have hpw : p = w.path := by
        rcases List.mem_map.mp h with ⟨w2, hw2, hpath⟩
        rcases List.mem_cons.mp hw2 with rfl | hmem
        · exact hpath.symm
        · exact absurd (List.mem_map.mpr ⟨w2, hmem, hpath⟩) hp
      rw [read_applyWrites_not_mem t _ p hp, read_applyWrites_not_mem t _ p hp,
          hpw, fsRead_set_self, fsRead_set_self]

theorem mainLoop_append (parseYaml : List Char → Except Err Record)
    (pre rest : List DirEntry)
    (h : (mainLoop parseYaml pre).2.2 = none) :
    mainLoop parseYaml (pre ++ rest) =
      ((mainLoop parseYaml pre).1 ++ (mainLoop parseYaml rest).1,
       (mainLoop parseYaml pre).2.1 ++ (mainLoop parseYaml rest).2.1,
       (mainLoop parseYaml rest).2.2) := by
  induction pre with
  | nil => simp [mainLoop]
  | cons d t ih =>
    rw [List.cons_append]
    by_cases hd : d.isDir = true
    · simp only [mainLoop, hd, if_true] at h ⊢
      cases hstep : (areaStep parseYaml d).2 with
      | some e =>
        rw [hstep] at h
        simp at h
      | none =>
        rw [hstep] at h
        have h2 : (mainLoop parseYaml t).2.2 = none := h
        rw [ih h2]
        simp [List.append_assoc, hstep]
    · have hd2 : d.isDir = false := by
        cases hval : d.isDir
        · rfl
        · exact absurd hval hd
      simp only [mainLoop, hd2, Bool.false_eq_true, if_false] at h ⊢
      exact ih h

/-! ### Behaviour of the front-matter stripping on delimited documents -/

theorem dropWhile_dash_lead (x : List Char) :
    List.dropWhile (fun c => c == '-') ('-' :: '-' :: '-' :: '\n' :: x) =
      '\n' :: x := by
  rw [List.dropWhile_cons_of_pos (by decide), List.dropWhile_cons_of_pos (by decide),
      List.dropWhile_cons_of_pos (by decide), List.dropWhile_cons_of_neg (by decide)]

theorem dropWhile_ws_newline (x : List Char) :
    List.dropWhile pyIsSpace ('\n' :: x) = List.dropWhile pyIsSpace x := by
  rw [List.dropWhile_cons_of_pos (by decide)]

/-- Both delimiters present: `---\n<doc>\n---` strips to `doc`, provided
`doc` itself starts and ends with no whitespace or hyphen. -/
theorem stripFM_both (c : Char) (t : List Char) (d : Char)
    (hd : (c :: t).getLast? = some d)
    (hcw : pyIsSpace c = false) (hdw : pyIsSpace d = false) :
    stripFrontMatter
      (('-' :: '-' :: '-' :: '\n' :: (c :: t)) ++ ('\n' :: '-' :: '-' :: ['-'])) =
      c :: t := by
  have hrev : t.reverse ++ [c] = (c :: t).reverse := by simp
  have hdrev : (c :: t).reverse.head? = some d := by
    rw [List.head?_reverse]; exact hd
  have h1 : pyStripWS
      (('-' :: '-' :: '-' :: '\n' :: (c :: t)) ++ ('\n' :: '-' :: '-' :: ['-'])) =
      ('-' :: '-' :: '-' :: '\n' :: (c :: t)) ++ ('\n' :: '-' :: '-' :: ['-']) := by
    apply stripWhile_eq_self
    · intro e he
      simp only [List.cons_append, List.head?_cons, Option.some.injEq] at he
      subst he; decide
    · intro e he
      rw [List.getLast?_append,
          show ('\n' :: '-' :: '-' :: ['-'] : List Char).getLast? = some '-' from rfl,
          Option.or_some] at he
      cases he; decide
  have h2 : startsWithDashes
      (('-' :: '-' :: '-' :: '\n' :: (c :: t)) ++ ('\n' :: '-' :: '-' :: ['-'])) = true := by
    simp [startsWithDashes, List.isPrefixOf, List.cons_append]
  have h3 : pyStripDash
      (('-' :: '-' :: '-' :: '\n' :: (c :: t)) ++ ('\n' :: '-' :: '-' :: ['-'])) =
      '\n' :: ((c :: t) ++ ['\n']) := by
    unfold pyStripDash stripWhile
    rw [List.cons_append, List.cons_append, List.cons_append, List.cons_append,
        dropWhile_dash_lead]
    rw [show ((c :: t) ++ '\n' :: '-' :: '-' :: ['-']) =
          ((c :: t) ++ ['\n']) ++ ['-', '-', '-'] by simp]
    rw [show ('\n' :: (((c :: t) ++ ['\n']) ++ ['-', '-', '-'])).reverse =
          '-' :: '-' :: '-' :: '\n' :: ((c :: t).reverse ++ ['\n']) by simp]
    rw [List.dropWhile_cons_of_pos (by decide), List.dropWhile_cons_of_pos (by decide),
        List.dropWhile_cons_of_pos (by decide), List.dropWhile_cons_of_neg (by decide)]
    simp
  have h4 : pyStripWS ('\n' :: ((c :: t) ++ ['\n'])) = c :: t := by
    unfold pyStripWS stripWhile
    rw [dropWhile_ws_newline, List.cons_append,
        List.dropWhile_cons_of_neg (by simp [hcw])]
    rw [show (c :: (t ++ ['\n'])).reverse = '\n' :: (t.reverse ++ [c]) by simp]
    rw [dropWhile_ws_newline, hrev,
        dropWhile_eq_self_of_head pyIsSpace (c :: t).reverse
          (fun e he => by rw [hdrev] at he; cases he; exact hdw)]
    simp
  unfold stripFrontMatter
  rw [h1]
  simp only [h2, if_true]
  rw [h3, h4]

/-- Leading delimiter only: `---\n<doc>` also strips to `doc` (here the
hypothesis that `doc` does not end in a hyphen matters: a trailing hyphen
of the content would be eaten). -/
theorem stripFM_leading (c : Char) (t : List Char) (d : Char)
    (hd : (c :: t).getLast? = some d)
    (hcw : pyIsSpace c = false) (hdw : pyIsSpace d = false) (hdd : d ≠ '-') :
    stripFrontMatter ('-' :: '-' :: '-' :: '\n' :: (c :: t)) = c :: t := by
  have hdrev : (c :: t).reverse.head? = some d := by
    rw [List.head?_reverse]; exact hd
  have h1 : pyStripWS ('-' :: '-' :: '-' :: '\n' :: (c :: t)) =
      '-' :: '-' :: '-' :: '\n' :: (c :: t) := by
    apply stripWhile_eq_self
    · intro e he
      cases he; decide
    · intro e he
      rw [List.getLast?_cons_cons, List.getLast?_cons_cons,
          List.getLast?_cons_cons, List.getLast?_cons_cons, hd] at he
      cases he; exact hdw
  have h2 : startsWithDashes ('-' :: '-' :: '-' :: '\n' :: (c :: t)) = true := by
    simp [startsWithDashes, List.isPrefixOf]
  have h3 : pyStripDash ('-' :: '-' :: '-' :: '\n' :: (c :: t)) =
      '\n' :: (c :: t) := by
    unfold pyStripDash stripWhile
    rw [dropWhile_dash_lead]
    rw [show ('\n' :: (c :: t)).reverse = (c :: t).reverse ++ ['\n'] by simp]
    rw [dropWhile_eq_self_of_head (fun x => x == '-') ((c :: t).reverse ++ ['\n'])
        (fun e he => by
          rw [List.head?_append, hdrev, Option.or_some] at he
          cases he
          exact beq_eq_false_iff_ne.mpr hdd)]
    simp
  have h4 : pyStripWS ('\n' :: (c :: t)) = c :: t := by
    unfold pyStripWS stripWhile
    rw [dropWhile_ws_newline, List.dropWhile_cons_of_neg (by simp [hcw])]
    rw [dropWhile_eq_self_of_head pyIsSpace (c :: t).reverse
        (fun e he => by rw [hdrev] at he; cases he; exact hdw)]
    simp
  unfold stripFrontMatter
  rw [h1]
  simp only [h2, if_true]
  rw [h3, h4]

/-- No leading delimiter: the text is returned unchanged (after the outer
whitespace strip, which removes nothing here). -/
theorem stripFM_plain (c : Char) (t : List Char) (d : Char)
    (hd : (c :: t).getLast? = some d)
    (hcw : pyIsSpace c = false) (hcd : c ≠ '-') (hdw : pyIsSpace d = false) :
    stripFrontMatter (c :: t) = c :: t := by
  have h1 : pyStripWS (c :: t) = c :: t := by
    apply stripWhile_eq_self
    · intro e he; cases he; exact hcw
    · intro e he; rw [hd] at he; cases he; exact hdw
  have hc2 : (('-' : Char) == c) = false :=
    beq_eq_false_iff_ne.mpr (fun he => hcd he.symm)
  have h2 : startsWithDashes (c :: t) = false := by
    simp [startsWithDashes, List.isPrefixOf, hc2]
  unfold stripFrontMatter
  rw [h1]
  simp only [h2, Bool.false_eq_true, if_false]

/-- Trailing delimiter only: the text is returned unchanged — the trailing
delimiter is NOT stripped, because the test looks only at the start. -/
theorem stripFM_trailing (c : Char) (t : List Char)
    (hcw : pyIsSpace c = false) (hcd : c ≠ '-') :
    stripFrontMatter ((c :: t) ++ ('\n' :: '-' :: '-' :: ['-'])) =
      (c :: t) ++ ('\n' :: '-' :: '-' :: ['-']) := by
  have h1 : pyStripWS ((c :: t) ++ ('\n' :: '-' :: '-' :: ['-'])) =
      (c :: t) ++ ('\n' :: '-' :: '-' :: ['-']) := by
    apply stripWhile_eq_self
    · intro e he
      rw [List.cons_append, List.head?_cons] at he
      cases he; exact hcw
    · intro e he
      rw [List.getLast?_append,
          show ('\n' :: '-' :: '-' :: ['-'] : List Char).getLast? = some '-' from rfl,
          Option.or_some] at he
      cases he; decide
  have hc2 : (('-' : Char) == c) = false :=
    beq_eq_false_iff_ne.mpr (fun he => hcd he.symm)
  have h2 : startsWithDashes ((c :: t) ++ ('\n' :: '-' :: '-' :: ['-'])) = false := by
    simp [startsWithDashes, List.isPrefixOf, List.cons_append, hc2]
  unfold stripFrontMatter
  rw [h1]
  simp only [h2, Bool.false_eq_true, if_false]

/-! ### Losslessness of the decimal float serialization -/

theorem ofDigitsRev_fuel (fuel : Nat) :
    ∀ n : Nat, n ≤ fuel → ofDigitsRev (natToDigitsRevFuel fuel n) = n := by
  induction fuel with
  | zero =>
    intro n hn
    have : n = 0 := Nat.le_zero.mp hn
    simp [natToDigitsRevFuel, this, ofDigitsRev]
  | succ f ih =>
    intro n hn
    by_cases hz : n = 0
    · simp [natToDigitsRevFuel, hz, ofDigitsRev]
    · simp only [natToDigitsRevFuel, if_neg hz, ofDigitsRev]
      rw [ih (n / 10) ?_]
      · exact Nat.mod_add_div n 10
      · have h1 : n / 10 < n := Nat.div_lt_self (Nat.pos_of_ne_zero hz) (by omega)
        omega

theorem ofDigitsRev_natDigitsRev (n : Nat) :
    ofDigitsRev (natDigitsRev n) = n :=
  ofDigitsRev_fuel n n le_rfl

theorem digits_lt_ten (fuel : Nat) :
    ∀ n d, d ∈ natToDigitsRevFuel fuel n → d < 10 := by
  induction fuel with
  | zero => intro n d hd; simp [natToDigitsRevFuel] at hd
  | succ f ih =>
    intro n d hd
    by_cases hz : n = 0
    · simp [natToDigitsRevFuel, hz] at hd
    · simp only [natToDigitsRevFuel, if_neg hz, List.mem_cons] at hd
      rcases hd with rfl | hd
      · exact Nat.mod_lt n (by omega)
      · exact ih (n / 10) d hd

theorem natDigitsRev_lt_ten (n : Nat) :
    ∀ d ∈ natDigitsRev n, d < 10 :=
  fun d hd => digits_lt_ten n n d hd

theorem ofDigitsRev_append (xs ys : List Nat) :
    ofDigitsRev (xs ++ ys) =
      ofDigitsRev xs + 10 ^ xs.length * ofDigitsRev ys := by
  induction xs with
  | nil => simp [ofDigitsRev]
  | cons d t ih =>
    simp only [List.cons_append, ofDigitsRev, List.length_cons, List.append_eq]
    rw [ih]
    ring

theorem ofDigitsRev_replicate_zero (k : Nat) :
    ofDigitsRev (List.replicate k 0) = 0 := by
  induction k with
  | zero => rfl
  | succ j ih => simp [List.replicate_succ, ofDigitsRev, ih]

theorem charDigit_digitChar (d : Nat) (h : d < 10) :
    charDigit (digitChar d) = d := by
  interval_cases d <;> decide

theorem isDigitChar_digitChar (d : Nat) (h : d < 10) :
    isDigitChar (digitChar d) = true := by
  interval_cases d <;> decide

theorem digitChar_chars (d : Nat) (h : d < 10) :
    (digitChar d != '.') = true ∧ digitChar d ≠ '-' := by
  interval_cases d <;> exact ⟨by decide, by decide⟩

theorem digitsValAux_append (xs ys : List Char) :
    ∀ acc, digitsValAux acc (xs ++ ys) = digitsValAux (digitsValAux acc xs) ys := by
  induction xs with
  | nil => intro acc; rfl
  | cons c t ih =>
    intro acc
    rw [List.cons_append]
    show digitsValAux (acc * 10 + charDigit c) (t ++ ys) =
      digitsValAux (digitsValAux (acc * 10 + charDigit c) t) ys
    exact ih _

theorem digitsValAux_rev_map (ds : List Nat) (hds : ∀ d ∈ ds, d < 10) :
    ∀ acc, digitsValAux acc ((ds.map digitChar).reverse) =
      acc * 10 ^ ds.length + ofDigitsRev ds := by
  induction ds with
  | nil =>
    intro acc
    show acc = acc * 10 ^ (0 : Nat) + 0
    ring
  | cons d t ih =>
    intro acc
    rw [List.map_cons, List.reverse_cons, digitsValAux_append]
    rw [ih (fun x hx => hds x (List.mem_cons_of_mem d hx)) acc]
    show (acc * 10 ^ t.length + ofDigitsRev t) * 10 + charDigit (digitChar d) =
      acc * 10 ^ (t.length + 1) + (d + 10 * ofDigitsRev t)
    rw [charDigit_digitChar d (hds d (List.mem_cons_self d t))]
    ring

theorem takeWhile_dot_split (xs ys : List Char)
    (h : ∀ c ∈ xs, (c != '.') = true) :
    (xs ++ '.' :: ys).takeWhile (fun c => c != '.') = xs ∧
    (xs ++ '.' :: ys).dropWhile (fun c => c != '.') = '.' :: ys := by
  induction xs with
  | nil =>
    constructor
    · rfl
    · rfl
  | cons c t ih =>
    have hc := h c (List.mem_cons_self c t)
    have iht := ih (fun x hx => h x (List.mem_cons_of_mem c hx))
    constructor
    · rw [List.cons_append, List.takeWhile_cons, hc]
      simp only [if_true, iht.1]
    · rw [List.cons_append, List.dropWhile_cons, hc]
      simp only [if_true, iht.2]

theorem map_rev_chars (ds : List Nat) (hds : ∀ d ∈ ds, d < 10) :
    ∀ c ∈ (ds.map digitChar).reverse,
      (c != '.') = true ∧ isDigitChar c = true ∧ c ≠ '-' := by
  intro c hc
  rw [List.mem_reverse, List.mem_map] at hc
  rcases hc with ⟨d, hd, rfl⟩
  exact ⟨(digitChar_chars d (hds d hd)).1, isDigitChar_digitChar d (hds d hd),
    (digitChar_chars d (hds d hd)).2⟩

theorem digitsStr_chars (ds : List Nat) (hds : ∀ d ∈ ds, d < 10) :
    ∀ c ∈ digitsStr ds, (c != '.') = true ∧ isDigitChar c = true ∧ c ≠ '-' := by
  intro c hc
  unfold digitsStr at hc
  by_cases he : ds.isEmpty
  · rw [if_pos he, List.mem_singleton] at hc
    subst hc
    exact ⟨rfl, rfl, by decide⟩
  · rw [if_neg he] at hc
    exact map_rev_chars ds hds c hc

theorem digitsStr_ne_nil (ds : List Nat) : digitsStr ds ≠ [] := by
  unfold digitsStr
  by_cases he : ds.isEmpty
  · simp [he]
  · rw [if_neg he]
    simp only [ne_eq, List.reverse_eq_nil_iff, List.map_eq_nil_iff]
    rw [List.isEmpty_iff] at he
    exact he

theorem digitsStr_val (ds : List Nat) (hds : ∀ d ∈ ds, d < 10) :
    digitsValAux 0 (digitsStr ds) = ofDigitsRev ds := by
  unfold digitsStr
  by_cases he : ds.isEmpty
  · rw [List.isEmpty_iff] at he
    subst he
    rfl
  · rw [if_neg (by rw [List.isEmpty_iff]; intro h2; rw [h2] at he; exact he rfl)]
    rw [digitsValAux_rev_map ds hds 0]
    simp

theorem split_digits (a e : Nat) :
    ofDigitsRev ((natDigitsRev a ++ List.replicate e 0).take e) +
      10 ^ e * ofDigitsRev ((natDigitsRev a).drop e) = a := by
  by_cases hle : e ≤ (natDigitsRev a).length
  · rw [List.take_append_of_le_length hle]
    have hsplit : natDigitsRev a =
        (natDigitsRev a).take e ++ (natDigitsRev a).drop e :=
      (List.take_append_drop e (natDigitsRev a)).symm
    have hval := ofDigitsRev_natDigitsRev a
    rw [hsplit, ofDigitsRev_append] at hval
    rwa [List.length_take, Nat.min_eq_left hle] at hval
  · push_neg at hle
    rw [List.drop_eq_nil_of_le (le_of_lt hle)]
    rw [List.take_append_eq_append_take]
    rw [List.take_of_length_le (le_of_lt hle)]
    rw [ofDigitsRev_append]
    rw [List.take_replicate, ofDigitsRev_replicate_zero]
    simp [ofDigitsRev, ofDigitsRev_natDigitsRev a]

theorem unsignedFloatChars_ne_nil (a e : Nat) : unsignedFloatChars a e ≠ [] := by
  unfold unsignedFloatChars
  by_cases he : e = 0
  · rw [if_pos he]
    simp [digitsStr_ne_nil]
  · rw [if_neg he]
    simp [digitsStr_ne_nil]

theorem unsignedFloatChars_head_ne_neg (a e : Nat) :
    ∀ c, (unsignedFloatChars a e).head? = some c → c ≠ '-' := by
  intro c hc
  have hmem : c ∈ unsignedFloatChars a e := by
    cases hval : unsignedFloatChars a e with
    | nil => rw [hval] at hc; cases hc
    | cons c0 t0 =>
      rw [hval] at hc
      rw [List.head?_cons, Option.some.injEq] at hc
      subst hc
      exact List.mem_cons_self c0 t0
  unfold unsignedFloatChars at hmem
  by_cases he : e = 0
  · rw [if_pos he] at hmem
    rcases List.mem_append.mp hmem with h1 | h2
    · exact (digitsStr_chars (natDigitsRev a) (natDigitsRev_lt_ten a) c h1).2.2
    · rcases h2 with _ | ⟨_, h3⟩
      · decide
      · rcases h3 with _ | ⟨_, h4⟩
        · decide
        · cases h4
  · rw [if_neg he] at hmem
    rcases List.mem_append.mp hmem with h1 | h2
    · have hid : ∀ x ∈ (natDigitsRev a).drop e, x < 10 :=
        fun x hx => natDigitsRev_lt_ten a x (List.drop_subset e (natDigitsRev a) hx)
      exact (digitsStr_chars ((natDigitsRev a).drop e) hid c h1).2.2
    · rcases List.mem_cons.mp h2 with rfl | h3
      · decide
      · have hfd : ∀ x ∈ (natDigitsRev a ++ List.replicate e 0).take e, x < 10 := by
          intro x hx
          rcases List.mem_append.mp
            (List.take_subset e (natDigitsRev a ++ List.replicate e 0) hx) with h4 | h5
          · exact natDigitsRev_lt_ten a x h4
          · rw [List.eq_of_mem_replicate h5]; omega
        exact (map_rev_chars _ hfd c h3).2.2

theorem decDenote_eq_of_head_ne_neg (s : List Char) (hne : s ≠ [])
    (hh : ∀ c, s.head? = some c → c ≠ '-') : decDenote s = decDenoteNat s := by
  cases s with
  | nil => exact absurd rfl hne
  | cons c t =>
    show (if c = '-' then (decDenoteNat t).map (fun q => -q)
      else decDenoteNat (c :: t)) = decDenoteNat (c :: t)
    rw [if_neg (hh c rfl)]

theorem decDenote_neg_chars (s : List Char) :
    decDenote ('-' :: s) = (decDenoteNat s).map (fun q => -q) := by
  show (if ('-' : Char) = '-' then (decDenoteNat s).map (fun q => -q)
    else decDenoteNat ('-' :: s)) = (decDenoteNat s).map (fun q => -q)
  rw [if_pos rfl]

theorem decDenoteNat_unsigned (a e : Nat) :
    decDenoteNat (unsignedFloatChars a e) = some ((a : ℚ) / (10 : ℚ) ^ e) := by
  by_cases he : e = 0
  · subst he
    have hchars := digitsStr_chars (natDigitsRev a) (natDigitsRev_lt_ten a)
    have hsplit := takeWhile_dot_split (digitsStr (natDigitsRev a)) ['0']
      (fun c hc => (hchars c hc).1)
    unfold unsignedFloatChars
    rw [if_pos rfl]
    unfold decDenoteNat
    rw [hsplit.1, hsplit.2]
    simp only [List.tail_cons, List.head?_cons]
    rw [if_pos ?hc0]
    case hc0 =>
      refine ⟨trivial, ?_, ?_, ?_, ?_⟩
      · intro h2
        exact digitsStr_ne_nil (natDigitsRev a) (List.isEmpty_iff.mp h2)
      · intro h2
        cases h2
      · exact List.all_eq_true.mpr (fun c hc => (hchars c hc).2.1)
      · decide
    rw [digitsStr_val (natDigitsRev a) (natDigitsRev_lt_ten a),
        ofDigitsRev_natDigitsRev a,
        show digitsValAux 0 ['0'] = 0 from by decide]
    norm_num
  · have hid : ∀ x ∈ (natDigitsRev a).drop e, x < 10 :=
      fun x hx => natDigitsRev_lt_ten a x (List.drop_subset e (natDigitsRev a) hx)
    have hfd : ∀ x ∈ (natDigitsRev a ++ List.replicate e 0).take e, x < 10 := by
      intro x hx
      rcases List.mem_append.mp
        (List.take_subset e (natDigitsRev a ++ List.replicate e 0) hx) with h4 | h5
      · exact natDigitsRev_lt_ten a x h4
      · rw [List.eq_of_mem_replicate h5]; omega
    have hfrac_len : ((natDigitsRev a ++ List.replicate e 0).take e).length = e := by
      rw [List.length_take, List.length_append, List.length_replicate]
      omega
    have hchars := digitsStr_chars ((natDigitsRev a).drop e) hid
    have hfchars := map_rev_chars ((natDigitsRev a ++ List.replicate e 0).take e) hfd
    have hsplit := takeWhile_dot_split (digitsStr ((natDigitsRev a).drop e))
      ((((natDigitsRev a ++ List.replicate e 0).take e).map digitChar).reverse)
      (fun c hc => (hchars c hc).1)
    unfold unsignedFloatChars
    rw [if_neg he]
    unfold decDenoteNat
    rw [hsplit.1, hsplit.2]
    simp only [List.tail_cons, List.head?_cons]
    rw [if_pos ?hc1]
    case hc1 =>
      refine ⟨trivial, ?_, ?_, ?_, ?_⟩
      · intro h2
        exact digitsStr_ne_nil _ (List.isEmpty_iff.mp h2)
      · intro h2
        have h3 : ((((natDigitsRev a ++ List.replicate e 0).take e).map
            digitChar).reverse) = [] := List.isEmpty_iff.mp h2
        have h4 := congrArg List.length h3
        rw [List.length_reverse, List.length_map, hfrac_len] at h4
        exact he (by simpa using h4)
      · exact List.all_eq_true.mpr (fun c hc => (hchars c hc).2.1)
      · exact List.all_eq_true.mpr (fun c hc => (hfchars c hc).2.1)
    rw [digitsStr_val ((natDigitsRev a).drop e) hid]
    have hfval : digitsValAux 0
        ((((natDigitsRev a ++ List.replicate e 0).take e).map digitChar).reverse) =
        ofDigitsRev ((natDigitsRev a ++ List.replicate e 0).take e) := by
      rw [digitsValAux_rev_map _ hfd 0]
      simp
    rw [hfval]
    have hflen : ((((natDigitsRev a ++ List.replicate e 0).take e).map
        digitChar).reverse).length = e := by
      rw [List.length_reverse, List.length_map, hfrac_len]
    rw [hflen]
    have hsd := split_digits a e
    have hcast : (ofDigitsRev ((natDigitsRev a ++ List.replicate e 0).take e) : ℚ) +
        (10 : ℚ) ^ e * (ofDigitsRev ((natDigitsRev a).drop e) : ℚ) = (a : ℚ) := by
      exact_mod_cast congrArg (fun n : Nat => (n : ℚ)) hsd
    have h10 : (10 : ℚ) ^ e ≠ 0 := by positivity
    congr 1
    rw [eq_div_iff h10, add_mul, div_mul_cancel₀ _ h10]
    linarith [hcast]

theorem decDenote_pyFloatRepr (d : DecNum) :
    decDenote (pyFloatRepr d).data = some d.toRat := by
  obtain ⟨m, e⟩ := d
  have hdata : (pyFloatRepr ⟨m, e⟩).data =
      (if m < 0 then ['-'] else []) ++ unsignedFloatChars m.natAbs e := by
    unfold pyFloatRepr
    by_cases hm : m < 0
    · rw [if_pos hm, if_pos hm]
      rfl
    · rw [if_neg hm, if_neg hm]
      rfl
  rw [hdata]
  by_cases hm : m < 0
  · rw [if_pos hm]
    rw [show ((['-'] : List Char) ++ unsignedFloatChars m.natAbs e) =
      '-' :: unsignedFloatChars m.natAbs e from rfl]
    rw [decDenote_neg_chars, decDenoteNat_unsigned]
    have h2 : ((m.natAbs : ℤ)) = -m := Int.ofNat_natAbs_of_nonpos (le_of_lt hm)
    have habs : ((m.natAbs : ℚ)) = -(m : ℚ) := by
      rw [← Int.cast_natCast (R := ℚ), h2, Int.cast_neg]
    show some (-(((m.natAbs : ℚ)) / (10 : ℚ) ^ e)) = some ((⟨m, e⟩ : DecNum).toRat)
    unfold DecNum.toRat
    rw [habs]
    rw [neg_div]
    rw [neg_neg]
  · rw [if_neg hm]
    rw [List.nil_append]
    rw [decDenote_eq_of_head_ne_neg _ (unsignedFloatChars_ne_nil _ _)
      (unsignedFloatChars_head_ne_neg _ _)]
    rw [decDenoteNat_unsigned]
    have habs : ((m.natAbs : ℚ)) = (m : ℚ) := by
      rw [← Int.cast_natCast (R := ℚ), Int.natAbs_of_nonneg (not_lt.mp hm)]
    rw [habs]
    rfl

/-! ### Claims -/

/-- C3 counterexample: the claim says optional leading AND trailing
delimiter markers are stripped even when only one is present, leaving the
document content unchanged.  On the file text `"title: x\n---"` (trailing
delimiter only) `load_routes`'s stripping returns the text unchanged, with
the delimiter still attached, instead of the document `"title: x"`; and on
`"---\nkey: x-"` the stripping returns `"key: x"`, eating the hyphen that
belongs to the document content. -/
theorem claim_C3_counterexample :
    stripFrontMatter ("title: x\n---").data = ("title: x\n---").data ∧
    ("title: x\n---").data ≠ ("title: x").data ∧
    stripFrontMatter ("---\nkey: x-").data = ("key: x").data :=
  ⟨rfl, by decide, rfl⟩

/-- C3 (amended): stripping is driven solely by a leading `---` test: when
the whitespace-trimmed file text starts with `---`, every leading and
trailing hyphen is removed and the result is whitespace-trimmed again, and
this recovers exactly the document for documents that neither start nor
end in whitespace or a hyphen, whether the trailing delimiter is present
or not; a file with only a trailing delimiter is returned unchanged, the
delimiter NOT stripped; a file with no delimiters is returned unchanged. -/
theorem claim_C3_amended (doc : List Char) (hne : doc ≠ [])
    (hh : ∀ c, doc.head? = some c → pyIsSpace c = false ∧ c ≠ '-')
    (hl : ∀ c, doc.getLast? = some c → pyIsSpace c = false ∧ c ≠ '-') :
    stripFrontMatter
        (('-' :: '-' :: '-' :: '\n' :: doc) ++ ('\n' :: '-' :: '-' :: ['-'])) = doc ∧
    stripFrontMatter ('-' :: '-' :: '-' :: '\n' :: doc) = doc ∧
    stripFrontMatter doc = doc ∧
    stripFrontMatter (doc ++ ('\n' :: '-' :: '-' :: ['-'])) =
      doc ++ ('\n' :: '-' :: '-' :: ['-']) := by
  cases doc with
  | nil => exact absurd rfl hne
  | cons c t =>
    cases hgl : (c :: t).getLast? with
    | none => rw [List.getLast?_eq_none_iff] at hgl; cases hgl
    | some d =>
      obtain ⟨hcw, hcd⟩ := hh c rfl
      obtain ⟨hdw, hdd⟩ := hl d hgl
      exact ⟨stripFM_both c t d hgl hcw hdw,
             stripFM_leading c t d hgl hcw hdw hdd,
             stripFM_plain c t d hgl hcw hcd hdw,
             stripFM_trailing c t hcw hcd⟩

/-- C3 witness: the amended statement instantiated at the document
`"title: x"`. -/
theorem claim_C3_amended_witness :
    stripFrontMatter
        (('-' :: '-' :: '-' :: '\n' :: ("title: x").data) ++
          ('\n' :: '-' :: '-' :: ['-'])) = ("title: x").data ∧
    stripFrontMatter ('-' :: '-' :: '-' :: '\n' :: ("title: x").data) =
      ("title: x").data ∧
    stripFrontMatter ("title: x").data = ("title: x").data ∧
    stripFrontMatter (("title: x").data ++ ('\n' :: '-' :: '-' :: ['-'])) =
      ("title: x").data ++ ('\n' :: '-' :: '-' :: ['-']) :=
  claim_C3_amended ("title: x").data (by decide)
    (fun c hc => by
      rw [show ("title: x").data.head? = some 't' from rfl] at hc
      cases hc; decide)
    (fun c hc => by
      rw [show ("title: x").data.getLast? = some 'x' from rfl] at hc
      cases hc; decide)

/-- C4: when `load_routes` succeeds, the records it returns are the parses
(after front-matter stripping) of the area's metadata files arranged in
filename order: some rearrangement `fs` of the input files is sorted by
filename and the i-th record is parsed from the i-th file of `fs`. -/
theorem claim_C4 (parseYaml : List Char → Except Err Record)
    (files : List MdFile) (rs : List Record)
    (h : load_routes parseYaml files = Except.ok rs) :
    ∃ fs : List MdFile,
      fs.Perm files ∧
      List.Pairwise fileLe fs ∧
      List.Forall₂ (fun f r => parseYaml (stripFrontMatter f.2) = Except.ok r)
        fs rs := by
  refine ⟨files.insertionSort fileLe, List.perm_insertionSort fileLe files,
          List.sorted_insertionSort fileLe files, ?_⟩
  exact mapM_ok_forall2 _ _ _ h

/-- C4 witness: two files given in reverse name order come back sorted. -/
theorem claim_C4_witness :
    ∃ fs : List MdFile,
      fs.Perm [("b.md", ['x']), ("a.md", [])] ∧
      List.Pairwise fileLe fs ∧
      List.Forall₂
        (fun f r =>
          (Except.ok [("n", Val.int ((stripFrontMatter f.2).length : Int))] :
              Except Err Record) = Except.ok r)
        fs [[("n", Val.int 0)], [("n", Val.int 1)]] :=
  claim_C4 (fun c => Except.ok ([("n", Val.int (c.length : Int))] : Record))
    [("b.md", ['x']), ("a.md", [])] [[("n", Val.int 0)], [("n", Val.int 1)]] rfl

/-- C2: the compact data embedded by `generate_area_index` preserves the
four numeric facts exactly: a present integer value `n` of
`distance_km`/`elevation_m`/`asphalt_pct`/`gravel_pct` is serialized as
the JSON number `n`, a present float value (a decimal `m / 10 ^ e`, e.g.
`42.5`) is serialized as the JSON number with exactly that value, and an
absent value is serialized as `null`.  Serialization is lossless, never
stringified and never truncated: the text `json.dumps` emits for a float
is a decimal numeral that denotes exactly the original rational value
(so `42.5` appears as `42.5`, not `"42.5"` or `42`), and an integer is
emitted as its decimal numeral. -/
theorem claim_C2 (r : Record) (e : Entry) (h : buildEntry r = Except.ok e) :
    (∀ n : Int, rget r "distance_km" = some (Val.int n) →
      jfield (entryFields e) "distance" = some (JVal.num n)) ∧
    (∀ dd : DecNum, rget r "distance_km" = some (Val.float dd) →
      jfield (entryFields e) "distance" = some (JVal.fnum dd)) ∧
    (rget r "distance_km" = none →
      jfield (entryFields e) "distance" = some JVal.null) ∧
    (∀ n : Int, rget r "elevation_m" = some (Val.int n) →
      jfield (entryFields e) "elevation" = some (JVal.num n)) ∧
    (∀ dd : DecNum, rget r "elevation_m" = some (Val.float dd) →
      jfield (entryFields e) "elevation" = some (JVal.fnum dd)) ∧
    (rget r "elevation_m" = none →
      jfield (entryFields e) "elevation" = some JVal.null) ∧
    (∀ n : Int, rget r "asphalt_pct" = some (Val.int n) →
      jfield (entryFields e) "asphalt" = some (JVal.num n)) ∧
    (∀ dd : DecNum, rget r "asphalt_pct" = some (Val.float dd) →
      jfield (entryFields e) "asphalt" = some (JVal.fnum dd)) ∧
    (rget r "asphalt_pct" = none →
      jfield (entryFields e) "asphalt" = some JVal.null) ∧
    (∀ n : Int, rget r "gravel_pct" = some (Val.int n) →
      jfield (entryFields e) "gravel" = some (JVal.num n)) ∧
    (∀ dd : DecNum, rget r "gravel_pct" = some (Val.float dd) →
      jfield (entryFields e) "gravel" = some (JVal.fnum dd)) ∧
    (rget r "gravel_pct" = none →
      jfield (entryFields e) "gravel" = some JVal.null) ∧
    (∀ dd : DecNum,
      decDenote (renderJVal (JVal.fnum dd)).data = some dd.toRat) ∧
    (∀ n : Int, renderJVal (JVal.num n) = toString n) := by
  unfold buildEntry at h
  cases ht : rget r "title" with
  | none => rw [ht] at h; cases h
  | some title =>
    rw [ht] at h
    cases hs : rget r "slug" with
    | none => rw [hs] at h; cases h
    | some slug =>
      rw [hs] at h
      cases h
      refine ⟨fun n hn => ?_, fun dd hn => ?_, fun hn => ?_,
              fun n hn => ?_, fun dd hn => ?_, fun hn => ?_,
              fun n hn => ?_, fun dd hn => ?_, fun hn => ?_,
              fun n hn => ?_, fun dd hn => ?_, fun hn => ?_,
              fun dd => decDenote_pyFloatRepr dd, fun n => rfl⟩ <;>
        rw [hn] <;> exact rfl

/-- C2 witness: a record with `distance_km: 42.5` (the decimal
`425 / 10`), `elevation_m: 600`, and the other two facts absent
round-trips to the float `42.5`, the number `600` and `null`; the float
serializes to the text `42.5`, which denotes exactly `425 / 10`. -/
theorem claim_C2_witness :
    jfield (entryFields ⟨Val.str "T", Val.str "s",
        some (Val.float ⟨425, 1⟩), some (Val.int 600), none, none⟩)
      "distance" = some (JVal.fnum ⟨425, 1⟩) ∧
    jfield (entryFields ⟨Val.str "T", Val.str "s",
        some (Val.float ⟨425, 1⟩), some (Val.int 600), none, none⟩)
      "elevation" = some (JVal.num 600) ∧
    jfield (entryFields ⟨Val.str "T", Val.str "s",
        some (Val.float ⟨425, 1⟩), some (Val.int 600), none, none⟩)
      "asphalt" = some JVal.null ∧
    decDenote (renderJVal (JVal.fnum ⟨425, 1⟩)).data =
      some (DecNum.toRat ⟨425, 1⟩) ∧
    pyFloatRepr ⟨425, 1⟩ = "42.5" :=
  ⟨(claim_C2
      [("title", Val.str "T"), ("slug", Val.str "s"),
       ("distance_km", Val.float ⟨425, 1⟩), ("elevation_m", Val.int 600)]
      ⟨Val.str "T", Val.str "s", some (Val.float ⟨425, 1⟩),
       some (Val.int 600), none, none⟩ rfl).2.1 ⟨425, 1⟩ rfl,
   (claim_C2
      [("title", Val.str "T"), ("slug", Val.str "s"),
       ("distance_km", Val.float ⟨425, 1⟩), ("elevation_m", Val.int 600)]
      ⟨Val.str "T", Val.str "s", some (Val.float ⟨425, 1⟩),
       some (Val.int 600), none, none⟩ rfl).2.2.2.1 600 rfl,
   (claim_C2
      [("title", Val.str "T"), ("slug", Val.str "s"),
       ("distance_km", Val.float ⟨425, 1⟩), ("elevation_m", Val.int 600)]
      ⟨Val.str "T", Val.str "s", some (Val.float ⟨425, 1⟩),
       some (Val.int 600), none, none⟩ rfl).2.2.2.2.2.2.2.2.1 rfl,
   (claim_C2
      [("title", Val.str "T"), ("slug", Val.str "s"),
       ("distance_km", Val.float ⟨425, 1⟩), ("elevation_m", Val.int 600)]
      ⟨Val.str "T", Val.str "s", some (Val.float ⟨425, 1⟩),
       some (Val.int 600), none, none⟩ rfl).2.2.2.2.2.2.2.2.2.2.2.2.1
     ⟨425, 1⟩,
   rfl⟩

/-- C10: `title` and `slug` are required: a record missing either makes
`generate_area_index` (and `generate_route_page`) fail with an error,
unlike the optional fields; conversely, an area step that completed
without error only rendered records whose `title` and `slug` were both
present. -/
theorem claim_C10 (area : String) (routes : List Record) :
    (∀ r, r ∈ routes → (rget r "title" = none ∨ rget r "slug" = none) →
      ∃ e, generate_area_index area routes = Except.error e) ∧
    (∀ r, (rget r "title" = none ∨ rget r "slug" = none) →
      ∃ e, generate_route_page area r = Except.error e) ∧
    (∀ (parseYaml : List Char → Except Err Record) (d : DirEntry)
        (ws : List WriteOp), areaStep parseYaml d = (ws, none) →
      ∀ rs, load_routes parseYaml d.files = Except.ok rs →
        ∀ r, r ∈ rs → (rget r "title").isSome ∧ (rget r "slug").isSome) := by
  refine ⟨?_, ?_, ?_⟩
  · intro r hr hmiss
    have hb : ∃ e0, buildEntry r = Except.error e0 := by
      rcases hmiss with hm | hm
      · exact ⟨Err.keyError "title", by simp [buildEntry, hm]⟩
      · cases ht : rget r "title" with
        | none => exact ⟨Err.keyError "title", by simp [buildEntry, ht]⟩
        | some title => exact ⟨Err.keyError "slug", by simp [buildEntry, ht, hm]⟩
    rcases hb with ⟨e0, he0⟩
    rcases mapM_error_of_mem buildEntry routes r hr e0 he0 with ⟨e1, he1⟩
    refine ⟨e1, ?_⟩
    have he2 : embedEntries routes = Except.error e1 := he1
    simp [generate_area_index, he2]
  · intro r hmiss
    rcases hmiss with hm | hm
    · exact ⟨Err.keyError "title", by simp [generate_route_page, hm]⟩
    · cases ht : rget r "title" with
      | none => exact ⟨Err.keyError "title", by simp [generate_route_page, ht]⟩
      | some title =>
        exact ⟨Err.keyError "slug", by simp [generate_route_page, ht, hm]⟩
  · intro parseYaml d ws h rs hrs r hr
    cases hes : embedEntries rs with
    | error e =>
      have hg : generate_area_index d.name rs = Except.error e := by
        simp [generate_area_index, hes]
      have ha : areaStep parseYaml d = ([], some e) := by
        simp [areaStep, hrs, hg]
      rw [ha] at h
      simp at h
    | ok es =>
      have hes2 : mapMExcept buildEntry rs = Except.ok es := hes
      rcases mapM_ok_of_mem buildEntry rs es hes2 r hr with ⟨en, hen⟩
      unfold buildEntry at hen
      cases ht : rget r "title" with
      | none => rw [ht] at hen; cases hen
      | some title =>
        rw [ht] at hen
        cases hsl : rget r "slug" with
        | none => rw [hsl] at hen; cases hen
        | some slug => exact ⟨by simp [ht], by simp [hsl]⟩

/-- C10 witness: a record missing `title` makes both renderers fail, and
a completed area step implies both keys were present. -/
theorem claim_C10_witness :
    (∃ e, generate_area_index "a" [[("slug", Val.str "s")]] = Except.error e) ∧
    (∃ e, generate_route_page "a" [("slug", Val.str "s")] = Except.error e) ∧
    ((rget [("title", Val.str "T"), ("slug", Val.str "s")] "title").isSome ∧
     (rget [("title", Val.str "T"), ("slug", Val.str "s")] "slug").isSome) :=
  ⟨(claim_C10 "a" [[("slug", Val.str "s")]]).1 [("slug", Val.str "s")]
      (List.mem_singleton.mpr rfl) (Or.inl rfl),
   (claim_C10 "a" [[("slug", Val.str "s")]]).2.1 [("slug", Val.str "s")]
      (Or.inl rfl),
   (claim_C10 "a" [[("slug", Val.str "s")]]).2.2
      (fun _ => Except.ok [("title", Val.str "T"), ("slug", Val.str "s")])
      ⟨"a", true, [("r.md", [])]⟩
      (areaStep (fun _ => Except.ok [("title", Val.str "T"), ("slug", Val.str "s")])
        ⟨"a", true, [("r.md", [])]⟩).1
      rfl
      [[("title", Val.str "T"), ("slug", Val.str "s")]] rfl
      [("title", Val.str "T"), ("slug", Val.str "s")]
      (List.mem_singleton.mpr rfl)⟩

/-- C8: the area index embeds exactly one compact entry per route record,
and `load_routes` yields one record per metadata file, so the number of
embedded entries equals the number of input route files; an area with
zero route files still produces its area index page (and nothing else)
without error. -/
theorem claim_C8 (parseYaml : List Char → Except Err Record) :
    (∀ routes entries, embedEntries routes = Except.ok entries →
      entries.length = routes.length) ∧
    (∀ files routes, load_routes parseYaml files = Except.ok routes →
      routes.length = files.length) ∧
    (∀ name : String,
      (areaStep parseYaml ⟨name, true, []⟩).2 = none ∧
      (areaStep parseYaml ⟨name, true, []⟩).1.map (fun w => w.path) =
        ["areas/" ++ name ++ "/index.html"]) := by
  refine ⟨?_, ?_, fun name => ⟨rfl, rfl⟩⟩
  · intro routes entries h
    exact mapM_ok_length buildEntry routes entries h
  · intro files routes h
    have h0 : mapMExcept (fun f => parseYaml (stripFrontMatter f.2))
        (files.insertionSort fileLe) = Except.ok routes := h
    have h2 := mapM_ok_length (fun f => parseYaml (stripFrontMatter f.2))
      (files.insertionSort fileLe) routes h0
    rwa [List.length_insertionSort] at h2

/-- C8 witness: instantiated at a one-route area, a one-file load, and the
empty area `fryksas`. -/
theorem claim_C8_witness :
    (([⟨Val.str "T", Val.str "s", none, none, none, none⟩] : List Entry).length =
      ([[("title", Val.str "T"), ("slug", Val.str "s")]] : List Record).length) ∧
    (([[("title", Val.str "T"), ("slug", Val.str "s")]] : List Record).length =
      ([("r.md", [])] : List MdFile).length) ∧
    ((areaStep (fun _ => Except.ok [("title", Val.str "T"), ("slug", Val.str "s")])
        ⟨"fryksas", true, []⟩).2 = none ∧
     (areaStep (fun _ => Except.ok [("title", Val.str "T"), ("slug", Val.str "s")])
        ⟨"fryksas", true, []⟩).1.map (fun w => w.path) =
        ["areas/" ++ "fryksas" ++ "/index.html"]) :=
  ⟨(claim_C8 (fun _ => Except.ok [("title", Val.str "T"), ("slug", Val.str "s")])).1
      [[("title", Val.str "T"), ("slug", Val.str "s")]]
      [⟨Val.str "T", Val.str "s", none, none, none, none⟩] rfl,
   (claim_C8 (fun _ => Except.ok [("title", Val.str "T"), ("slug", Val.str "s")])).2.1
      [("r.md", [])] [[("title", Val.str "T"), ("slug", Val.str "s")]] rfl,
   (claim_C8 (fun _ => Except.ok [("title", Val.str "T"), ("slug", Val.str "s")])).2.2
      "fryksas"⟩

/-- C6: if an area's metadata fails to parse, the run stops with that
error: the writes of the whole run are exactly the writes of the areas
processed before it (left in place, not rolled back), with no write for
the failing area (its loader runs before any output of the area is
produced) and no write for any later area or for the root index. -/
theorem claim_C6 (parseYaml : List Char → Except Err Record)
    (pre post : List DirEntry) (bad : DirEntry) (e : Err)
    (hbad : bad.isDir = true)
    (hfail : load_routes parseYaml bad.files = Except.error e)
    (hpre : (mainLoop parseYaml pre).2.2 = none) :
    (mainRun parseYaml (pre ++ bad :: post)).1 = (mainLoop parseYaml pre).2.1 ∧
    (mainRun parseYaml (pre ++ bad :: post)).2 = some e := by
  have hstep : areaStep parseYaml bad = ([], some e) := by
    simp [areaStep, hfail]
  have hloop : mainLoop parseYaml (bad :: post) = ([bad.name], [], some e) := by
    simp [mainLoop, hbad, hstep]
  have happ := mainLoop_append parseYaml pre (bad :: post) hpre
  rw [hloop] at happ
  constructor <;> simp [mainRun, happ]

/-- C6 witness: a single unparsable area aborts the (otherwise empty) run
with the parse error and writes nothing. -/
theorem claim_C6_witness :
    (mainRun (fun _ => Except.error Err.parseError)
        ([] ++ (⟨"x", true, [("a.md", [])]⟩ : DirEntry) :: [])).1 =
      (mainLoop (fun _ => Except.error Err.parseError) []).2.1 ∧
    (mainRun (fun _ => Except.error Err.parseError)
        ([] ++ (⟨"x", true, [("a.md", [])]⟩ : DirEntry) :: [])).2 =
      some Err.parseError :=
  claim_C6 (fun _ => Except.error Err.parseError) [] [] ⟨"x", true, [("a.md", [])]⟩
    Err.parseError rfl rfl rfl

/-- C7: a second run over the same input writes exactly the same files
with the same content, so the filesystem content at every output path is
byte-identical after one run and after two (writes are full overwrites
and do not depend on the previous output state). -/
theorem claim_C7 (parseYaml : List Char → Except Err Record)
    (entries : List DirEntry) (fs : List (String × String)) (p : String)
    (hp : p ∈ (mainRun parseYaml entries).1.map (fun w => w.path)) :
    fsRead (applyWrites (applyWrites fs (mainRun parseYaml entries).1)
        (mainRun parseYaml entries).1) p =
      fsRead (applyWrites fs (mainRun parseYaml entries).1) p :=
  read_applyWrites_indep (mainRun parseYaml entries).1 p hp _ _

/-- C7 witness: the root index path after running twice on an empty areas
root reads the same as after running once. -/
theorem claim_C7_witness :
    "index.html" ∈ (mainRun (fun _ => Except.error Err.parseError) []).1.map
        (fun w => w.path) ∧
    fsRead (applyWrites
        (applyWrites [] (mainRun (fun _ => Except.error Err.parseError) []).1)
        (mainRun (fun _ => Except.error Err.parseError) []).1) "index.html" =
      fsRead (applyWrites [] (mainRun (fun _ => Except.error Err.parseError) []).1)
        "index.html" :=
  ⟨by decide,
   claim_C7 (fun _ => Except.error Err.parseError) [] [] "index.html" (by decide)⟩

/-- Names accumulated by a completed loop: exactly the directory entries,
in encounter order, non-directories skipped. -/
theorem mainLoop_names (parseYaml : List Char → Except Err Record) :
    ∀ entries : List DirEntry, (mainLoop parseYaml entries).2.2 = none →
      (mainLoop parseYaml entries).1 =
        (entries.filter (fun d => d.isDir)).map (fun d => d.name) := by
  intro entries
  induction entries with
  | nil => intro _; rfl
  | cons d t ih =>
    intro hok
    by_cases hd : d.isDir = true
    · simp only [mainLoop, hd, if_true] at hok ⊢
      cases hstep : (areaStep parseYaml d).2 with
      | some e => simp [hstep] at hok
      | none =>
        have h2 : (mainLoop parseYaml t).2.2 = none := by
          simpa [hstep] using hok
        simp [List.filter_cons, hd, hstep, ih h2]
    · have hd2 : d.isDir = false := by
        cases hval : d.isDir
        · rfl
        · exact absurd hval hd
      simp only [mainLoop, hd2, Bool.false_eq_true, if_false] at hok ⊢
      rw [List.filter_cons]
      simp only [hd2, Bool.false_eq_true, if_false]
      exact ih hok

/-- C9: on a completed run the areas are exactly the subdirectories of the
areas root in filesystem encounter order (non-directories ignored, no
sorting); the root index is the last file written and lists exactly those
areas; and the root index renderer emits one link per area in the given
list order between its fixed header and footer. -/
theorem claim_C9 (parseYaml : List Char → Except Err Record)
    (entries : List DirEntry)
    (hok : (mainLoop parseYaml entries).2.2 = none) :
    (mainLoop parseYaml entries).1 =
      (entries.filter (fun d => d.isDir)).map (fun d => d.name) ∧
    (mainRun parseYaml entries).1.getLast? =
      some ⟨"index.html",
        generate_root_index
          ((entries.filter (fun d => d.isDir)).map (fun d => d.name))⟩ ∧
    (∀ areas : List String,
      generate_root_index areas =
        rootIndexHeader ++ linksText areas ++ rootIndexFooter) := by
  have h1 := mainLoop_names parseYaml entries hok
  refine ⟨h1, ?_, ?_⟩
  · simp only [mainRun, hok]
    rw [List.getLast?_concat, h1]
  · intro areas
    unfold generate_root_index
    rw [foldl_links]

/-- C9 witness: one non-directory entry yields no areas, the root index is
still the last write, and the renderer emits the single `fryksas` link in
place. -/
theorem claim_C9_witness :
    (mainLoop (fun _ => Except.error Err.parseError)
        [(⟨"a", false, []⟩ : DirEntry)]).1 =
      (([(⟨"a", false, []⟩ : DirEntry)]).filter (fun d => d.isDir)).map
        (fun d => d.name) ∧
    (mainRun (fun _ => Except.error Err.parseError)
        [(⟨"a", false, []⟩ : DirEntry)]).1.getLast? =
      some ⟨"index.html",
        generate_root_index
          ((([(⟨"a", false, []⟩ : DirEntry)]).filter (fun d => d.isDir)).map
            (fun d => d.name))⟩ ∧
    generate_root_index ["fryksas"] =
      rootIndexHeader ++ linksText ["fryksas"] ++ rootIndexFooter :=
  ⟨(claim_C9 (fun _ => Except.error Err.parseError)
      [(⟨"a", false, []⟩ : DirEntry)] rfl).1,
   (claim_C9 (fun _ => Except.error Err.parseError)
      [(⟨"a", false, []⟩ : DirEntry)] rfl).2.1,
   (claim_C9 (fun _ => Except.error Err.parseError)
      [(⟨"a", false, []⟩ : DirEntry)] rfl).2.2 ["fryksas"]⟩

/-- Extract the page text of a successful render (used to state facts
about concrete runs). -/
def pageOf (x : Except Err String) : String :=
  match x with
  | .ok s => s
  | .error _ => ""

/-- C1 counterexample: the claim says an absent optional numeric field is
rendered as empty/blank text.  For the record `{title: "T", slug: "s"}`
(all four numeric facts absent) the route page renders the distance line
as `Distans:</strong> None km` — the text `None`, not blank: the blank
rendering `Distans:</strong>  km` does not occur in the page. -/
theorem claim_C1_counterexample :
    strContains (pageOf (generate_route_page "fryksas"
        [("title", Val.str "T"), ("slug", Val.str "s")]))
      "<strong>Distans:</strong> None km" = true ∧
    strContains (pageOf (generate_route_page "fryksas"
        [("title", Val.str "T"), ("slug", Val.str "s")]))
      "<strong>Distans:</strong>  km" = false ∧
    (generate_route_page "fryksas"
        [("title", Val.str "T"), ("slug", Val.str "s")]).toOption.isSome = true :=
  ⟨by decide, by decide, by decide⟩

/-- C1 (amended): for every route record an absent optional numeric field
is rendered on the route page as the literal text `None` (Python's string
form of the null value) in the corresponding fact line, not as blank
text. -/
theorem claim_C1_amended (area : String) (route : Record) (html : String)
    (h : generate_route_page area route = Except.ok html) :
    (rget route "distance_km" = none →
      strContains html "<strong>Distans:</strong> None km" = true) ∧
    (rget route "elevation_m" = none →
      strContains html "<strong>Höjdmeter:</strong> None m" = true) ∧
    (rget route "asphalt_pct" = none →
      strContains html "<strong>Andel asfalt:</strong> None %" = true) ∧
    (rget route "gravel_pct" = none →
      strContains html "<strong>Andel grus:</strong> None %" = true) := by
  unfold generate_route_page at h
  cases ht : rget route "title" with
  | none => rw [ht] at h; cases h
  | some title =>
    rw [ht] at h
    cases hs : rget route "slug" with
    | none => rw [hs] at h; cases h
    | some slug =>
      rw [hs] at h
      cases hdesc : (rget route "description").getD (Val.str "") with
      | int n => rw [hdesc] at h; cases h
      | float d => rw [hdesc] at h; cases h
      | vlist xs => rw [hdesc] at h; cases h
      | str description =>
        rw [hdesc] at h
        cases hph : (rget route "photos").getD (Val.vlist []) with
        | int n => rw [hph] at h; cases h
        | float d => rw [hph] at h; cases h
        | str s2 => rw [hph] at h; cases h
        | vlist photos =>
          rw [hph] at h
          cases h
          refine ⟨fun hn => ?_, fun hn => ?_, fun hn => ?_, fun hn => ?_⟩
          · rw [strContains_iff, hn]
            apply infix_data_append_right
            apply infix_data_append_left
            unfold routeFacts
            apply infix_data_append_right
            exact (listContains_iff _ _).mp (by decide)
          · rw [strContains_iff, hn]
            apply infix_data_append_right
            apply infix_data_append_left
            unfold routeFacts
            apply infix_data_append_left
            apply infix_data_append_right
            exact (listContains_iff _ _).mp (by decide)
          · rw [strContains_iff, hn]
            apply infix_data_append_right
            apply infix_data_append_left
            unfold routeFacts
            apply infix_data_append_left
            apply infix_data_append_left
            apply infix_data_append_right
            exact (listContains_iff _ _).mp (by decide)
          · rw [strContains_iff, hn]
            apply infix_data_append_right
            apply infix_data_append_left
            unfold routeFacts
            apply infix_data_append_left
            apply infix_data_append_left
            apply infix_data_append_left
            exact (listContains_iff _ _).mp (by decide)

/-- C1 witness: a record with `elevation_m` absent renders the elevation
line as `None m`. -/
theorem claim_C1_amended_witness :
    strContains (pageOf (generate_route_page "a"
        [("title", Val.str "U"), ("slug", Val.str "u"),
         ("distance_km", Val.int 5)]))
      "<strong>Höjdmeter:</strong> None m" = true :=
  (claim_C1_amended "a"
    [("title", Val.str "U"), ("slug", Val.str "u"), ("distance_km", Val.int 5)]
    (pageOf (generate_route_page "a"
      [("title", Val.str "U"), ("slug", Val.str "u"),
       ("distance_km", Val.int 5)]))
    rfl).2.1 rfl

/-- The scenario record of the specification: route `runda-1` of area
`fryksas`. -/
def fryksasRoute : Record :=
  [("slug", Val.str "runda-1"), ("title", Val.str "Rundan"),
   ("distance_km", Val.int 55), ("elevation_m", Val.int 600),
   ("gpx_file", Val.str "runda-1.gpx"), ("photos", Val.vlist [])]

/-- C5: for the scenario record, the driver writes the route page at
`areas/fryksas/routes/runda-1.html`; the page contains "Rundan",
"55 km", "600 m", an empty photo gallery and a link to
`../../gpx/runda-1.gpx`; and the area step also writes
`areas/fryksas/index.html`, whose embedded data has exactly one entry,
with slug `runda-1`. -/
theorem claim_C5 :
    (writeRoutePages "fryksas" [fryksasRoute]).2 = none ∧
    (writeRoutePages "fryksas" [fryksasRoute]).1.map (fun w => w.path) =
      ["areas/fryksas/routes/runda-1.html"] ∧
    strContains (pageOf (generate_route_page "fryksas" fryksasRoute))
      "Rundan" = true ∧
    strContains (pageOf (generate_route_page "fryksas" fryksasRoute))
      "55 km" = true ∧
    strContains (pageOf (generate_route_page "fryksas" fryksasRoute))
      "600 m" = true ∧
    strContains (pageOf (generate_route_page "fryksas" fryksasRoute))
      "<ul class=\x27photo-gallery\x27></ul>" = true ∧
    strContains (pageOf (generate_route_page "fryksas" fryksasRoute))
      "href=\x27../../gpx/runda-1.gpx\x27" = true ∧
    (areaStep (fun _ => Except.ok fryksasRoute)
        ⟨"fryksas", true, [("runda-1.md", [])]⟩).1.map (fun w => w.path) =
      ["areas/fryksas/index.html", "areas/fryksas/routes/runda-1.html"] ∧
    (areaStep (fun _ => Except.ok fryksasRoute)
        ⟨"fryksas", true, [("runda-1.md", [])]⟩).2 = none ∧
    (embedEntries [fryksasRoute]).toOption.map
        (fun es => es.map (fun e2 => e2.slug)) = some [Val.str "runda-1"] :=
  ⟨rfl, rfl, by decide, by decide, by decide, by decide, by decide,
   rfl, rfl, rfl⟩

end GravelFryksas
